import Mathlib

/-!
Verification of the production-logging ledger (a React/TypeScript single-page
app: `src/App.tsx`, `src/types.ts`, `src/services/gemini.ts`).

Shallow embedding conventions:
* JavaScript `number` is modelled as `ℚ` (exact rational arithmetic); every
  numeric operation of the source is total on rationals.
* `Number(x.toFixed(p))` is modelled by `roundTo p`, following the ECMAScript
  specification of `toFixed`: the sign is split off first, and of two equally
  near scaled integers the larger is chosen.
* Ordered collections (`ProductionEntry[]`, `Payment[]`) are `List`s; new
  records are prepended, matching `setXs(prev => [new, ...prev])`.
* JavaScript `startsWith` is modelled on the character sequence of the string.
* `localStorage` values, the JSON backup document and the Gemini request are
  modelled at the value level, with explicit constructors for the absent and
  the unparseable cases, mirroring exactly which branches the source takes.
-/

namespace Ledger

/-- `src/types.ts` — `ProductionEntry`. -/
structure ProductionEntry where
  id : String
  date : String
  runningDrum : ℚ
  openStockGrams : ℚ
  productionCones : ℚ
  closingStockGrams : ℚ
  ratePerKg : ℚ
  totalAmount : ℚ
  productionWeight : ℚ
  consumptionKg : ℚ
deriving DecidableEq, Repr

/-- `src/types.ts` — `Payment`. -/
structure Payment where
  id : String
  date : String
  amount : ℚ
  note : String
deriving DecidableEq, Repr

/-- Numeric part of the `stats` memo in `src/App.tsx` (the locale/currency
string formatting applied on top of these four numbers is presentation-layer). -/
structure SummaryStats where
  totalWeight : ℚ
  totalValue : ℚ
  totalPaid : ℚ
  outstandingBalance : ℚ
deriving DecidableEq, Repr

/-- `Number(x.toFixed(places))` of ECMAScript on the rational model: split off
the sign, scale by `10 ^ places`, take the integer nearest to the scaled value
preferring the larger on ties (`⌊y + 1/2⌋`), and scale back. -/
def roundTo (places : Nat) (x : ℚ) : ℚ :=
  if x < 0 then
    -(((⌊(-x) * 10 ^ places + 1/2⌋ : ℤ) : ℚ) / 10 ^ places)
  else
    ((⌊x * 10 ^ places + 1/2⌋ : ℤ) : ℚ) / 10 ^ places

/-- `src/App.tsx` — `calculateProductionWeight(drum, open, close, cones)`. -/
def calculateProductionWeight (drum openStock closeStock cones : ℚ) : ℚ :=
  let part1 := (drum * (1250 - openStock)) / 1000
  let part2 := (closeStock * 30) / 1000
  let part3 := ((cones - drum) * 1250) / 1000
  roundTo 3 (part1 + part2 + part3)

/-- `src/App.tsx` — `currentAmount`:
`Number((currentWeight * formData.ratePerKg).toFixed(2))`. -/
def currentAmount (weight ratePerKg : ℚ) : ℚ :=
  roundTo 2 (weight * ratePerKg)

/-- JavaScript `s.startsWith(p)`, modelled on the character sequence. -/
def strStartsWith (s p : String) : Bool :=
  p.data.isPrefixOf s.data

/-- `src/App.tsx` — the `filteredEntries` memo:
`selectedMonth === 'all' ? entries : entries.filter(e => e.date.startsWith(selectedMonth))`. -/
def filteredEntries (selectedMonth : String) (entries : List ProductionEntry) :
    List ProductionEntry :=
  if selectedMonth = "all" then entries
  else entries.filter (fun e => strStartsWith e.date selectedMonth)

/-- `src/App.tsx` — the `filteredPayments` memo. -/
def filteredPayments (selectedMonth : String) (payments : List Payment) :
    List Payment :=
  if selectedMonth = "all" then payments
  else payments.filter (fun p => strStartsWith p.date selectedMonth)

/-- `src/App.tsx` — the numeric part of the `stats` memo: three
`reduce((acc, curr) => acc + field, 0)` folds and the difference. -/
def stats (entries : List ProductionEntry) (payments : List Payment) : SummaryStats :=
  let totalWeight := entries.foldl (fun acc curr => acc + curr.productionWeight) 0
  let totalValue := entries.foldl (fun acc curr => acc + curr.totalAmount) 0
  let totalPaid := payments.foldl (fun acc curr => acc + curr.amount) 0
  { totalWeight := totalWeight
    totalValue := totalValue
    totalPaid := totalPaid
    outstandingBalance := totalValue - totalPaid }

/-- The payment form state (`paymentForm` in `src/App.tsx`). -/
structure PaymentForm where
  date : String
  amount : ℚ
  note : String
deriving DecidableEq, Repr

/-- `src/App.tsx` — `handlePaymentSubmit`: rejects `amount <= 0` (early
return, list untouched), otherwise prepends `{ ...paymentForm, id: uuidv4() }`.
The fresh uuid is passed in as `freshId`. -/
def handlePaymentSubmit (form : PaymentForm) (freshId : String)
    (payments : List Payment) : List Payment :=
  if form.amount ≤ 0 then payments
  else { id := freshId, date := form.date, amount := form.amount, note := form.note } :: payments

/-- `src/App.tsx` — `deleteEntry(id)` (after the confirmation gate):
`setEntries(prev => prev.filter(e => e.id !== id))`. -/
def deleteEntry (id : String) (entries : List ProductionEntry) : List ProductionEntry :=
  entries.filter (fun e => e.id != id)

/-- `src/App.tsx` — `deletePayment(id)` (after the confirmation gate). -/
def deletePayment (id : String) (payments : List Payment) : List Payment :=
  payments.filter (fun p => p.id != id)

/-- In-memory ledger state: the two collections owned by `App`. -/
structure LedgerState where
  entries : List ProductionEntry
  payments : List Payment
deriving DecidableEq, Repr

/-- The parsed structured-backup document. Each field is `Option`al: `none`
models a JSON document in which the key is absent (or carries a JavaScript
falsy value, which `backup.entries && backup.payments` treats the same way). -/
structure BackupDoc where
  entries : Option (List ProductionEntry)
  payments : Option (List Payment)
  version : Option String
  exportDate : Option String
deriving DecidableEq, Repr

/-- `src/App.tsx` — `exportFullBackup`: the document
`{ entries, payments, version: "1.0", exportDate: ... }` built from the full
(unfiltered) current state. -/
def exportFullBackup (st : LedgerState) (exportDate : String) : BackupDoc :=
  { entries := some st.entries
    payments := some st.payments
    version := some "1.0"
    exportDate := some exportDate }

/-- `src/App.tsx` — `handleImportFile` on a `.json` file. `parsed` is the
result of `JSON.parse` on the file content (`none` = the parse threw and the
`catch` branch ran); `confirmed` is the answer of the
`confirm("Restore from Backup? ...")` gate. Every branch other than
confirmed-with-both-containers leaves the state untouched. -/
def handleImportFile (parsed : Option BackupDoc) (confirmed : Bool)
    (st : LedgerState) : LedgerState :=
  match parsed with
  | none => st
  | some backup =>
    match backup.entries, backup.payments with
    | some es, some ps => if confirmed then { entries := es, payments := ps } else st
    | _, _ => st

/-- One `localStorage` slot as seen by the `useState` initializers in
`src/App.tsx`: `getItem` returned `null` (absent), the empty string (falsy,
so `saved ? ... : []` skips the parse), a non-empty string `JSON.parse`
rejects, or a string parsing to an array of records. -/
inductive StoredValue (α : Type) where
  | absent
  | emptyString
  | malformed
  | parsedArray (records : List α)
deriving DecidableEq

/-- `src/App.tsx` — a `useState` initializer
`const saved = localStorage.getItem(key); return saved ? JSON.parse(saved) : [];`.
There is no `try`/`catch`: on a malformed non-empty value, `JSON.parse` throws
(`Except.error`), which escapes the initializer. -/
def loadCollection {α : Type} (saved : StoredValue α) : Except String (List α) :=
  match saved with
  | .absent => .ok []
  | .emptyString => .ok []
  | .malformed => .error "SyntaxError: Unexpected token in JSON"
  | .parsedArray records => .ok records

/-- The initializer for the `production_entries` key. -/
def loadEntries (saved : StoredValue ProductionEntry) : Except String (List ProductionEntry) :=
  loadCollection saved

/-- The initializer for the `production_payments` key. -/
def loadPayments (saved : StoredValue Payment) : Except String (List Payment) :=
  loadCollection saved

/-- What `analyzeProductionData` in `src/services/gemini.ts` does before any
network activity: either return the fixed sentinel string (empty input), or
contact the service with a data payload embedded in the prompt. -/
inductive InsightAction where
  | sentinel (msg : String)
  | contactService (payload : List ProductionEntry)
deriving DecidableEq

/-- `src/services/gemini.ts` — the payload embedded in the prompt:
`data.slice(-10)`, i.e. the last `min(10, length)` elements of `data`. -/
def insightPayload (data : List ProductionEntry) : List ProductionEntry :=
  data.drop (data.length - 10)

/-- `src/services/gemini.ts` — `analyzeProductionData(data)`:
`if (data.length === 0) return "Add some data to get AI insights.";` and
otherwise a request whose prompt contains `JSON.stringify(data.slice(-10))`. -/
def analyzeProductionData (data : List ProductionEntry) : InsightAction :=
  if data.length = 0 then .sentinel "Add some data to get AI insights."
  else .contactService (insightPayload data)

/-- Evaluation helper for `roundTo` at a nonnegative concrete operand. -/
lemma roundTo_eq_of_nonneg (p : Nat) (x : ℚ) (n : ℤ) (hx : ¬x < 0)
    (h1 : (n : ℚ) ≤ x * 10 ^ p + 1 / 2) (h2 : x * 10 ^ p + 1 / 2 < n + 1) :
    roundTo p x = (n : ℚ) / 10 ^ p := by
  rw [roundTo, if_neg hx, Int.floor_eq_iff.mpr ⟨h1, h2⟩]

end Ledger

/-- C1: for every input, the calculator's weight equals
`round(drum*(1250-open)/1000 + close*30/1000 + (cones-drum)*1250/1000, 3)` and
the amount equals `round(weight*rate, 2)`; in particular
`(drum=5, open=200, close=100, cones=10, rate=150)` yields weight `14.5` and
amount `2175`. -/
theorem C1_calculator_formula :
    (∀ drum openStock closeStock cones rate : ℚ,
      Ledger.calculateProductionWeight drum openStock closeStock cones =
        Ledger.roundTo 3 (drum * (1250 - openStock) / 1000 + closeStock * 30 / 1000 +
          (cones - drum) * 1250 / 1000) ∧
      Ledger.currentAmount (Ledger.calculateProductionWeight drum openStock closeStock cones) rate =
        Ledger.roundTo 2 (Ledger.calculateProductionWeight drum openStock closeStock cones * rate)) ∧
    Ledger.calculateProductionWeight 5 200 100 10 = 14.5 ∧
    Ledger.currentAmount (Ledger.calculateProductionWeight 5 200 100 10) 150 = 2175 := by
  have hw : Ledger.calculateProductionWeight 5 200 100 10 = 14.5 := by
    simp only [Ledger.calculateProductionWeight]
    rw [Ledger.roundTo_eq_of_nonneg 3 _ 14500 (by norm_num) (by norm_num) (by norm_num)]
    norm_num
  refine ⟨fun drum openStock closeStock cones rate => ⟨rfl, rfl⟩, hw, ?_⟩
  simp only [Ledger.currentAmount, hw]
  rw [Ledger.roundTo_eq_of_nonneg 2 _ 217500 (by norm_num) (by norm_num) (by norm_num)]
  norm_num

/-- C2: exporting a structured backup from any ledger state and importing that
same document (with replacement confirmed) reproduces the exported entries and
payments collections exactly, field-for-field, ids included — whatever state
the import runs against. -/
theorem C2_backup_round_trip :
    ∀ (st other : Ledger.LedgerState) (exportDate : String),
      Ledger.handleImportFile (some (Ledger.exportFullBackup st exportDate)) true other = st := by
  intro st other exportDate
  rfl

/-- C5: a payment submission with `amount ≤ 0` is rejected and the payments
collection is exactly unchanged; a submission with positive amount prepends a
new payment carrying the fresh id to the front of the collection. -/
theorem C5_payment_validation :
    ∀ (form : Ledger.PaymentForm) (freshId : String) (payments : List Ledger.Payment),
      (form.amount ≤ 0 → Ledger.handlePaymentSubmit form freshId payments = payments) ∧
      (0 < form.amount →
        Ledger.handlePaymentSubmit form freshId payments =
          { id := freshId, date := form.date, amount := form.amount,
            note := form.note } :: payments) := by
  intro form freshId payments
  constructor
  · intro h
    simp only [Ledger.handlePaymentSubmit, if_pos h]
  · intro h
    simp only [Ledger.handlePaymentSubmit, if_neg (not_le.mpr h)]

/-- Witness for C5 at `amount = 0` (rejected) and `amount = 5` (prepended). -/
theorem C5_payment_validation_witness :
    Ledger.handlePaymentSubmit ⟨"2024-01-01", 0, ""⟩ "fresh" [] = [] ∧
    Ledger.handlePaymentSubmit ⟨"2024-01-01", 5, "part"⟩ "fresh" [] =
      [{ id := "fresh", date := "2024-01-01", amount := 5, note := "part" }] :=
  ⟨(C5_payment_validation ⟨"2024-01-01", 0, ""⟩ "fresh" []).1 (by norm_num),
   (C5_payment_validation ⟨"2024-01-01", 5, "part"⟩ "fresh" []).2 (by norm_num)⟩

/-- C6: an import whose document fails to parse, or parses but lacks the
entries container or the payments container, is rejected and the pre-import
state is preserved exactly, regardless of the confirmation answer. -/
theorem C6_import_all_or_nothing :
    ∀ (confirmed : Bool) (st : Ledger.LedgerState),
      Ledger.handleImportFile none confirmed st = st ∧
      ∀ backup : Ledger.BackupDoc,
        backup.entries = none ∨ backup.payments = none →
          Ledger.handleImportFile (some backup) confirmed st = st := by
  intro confirmed st
  refine ⟨rfl, ?_⟩
  rintro ⟨es, ps, v, d⟩ h
  rcases h with h | h
  · have h' : es = none := h
    subst h'
    cases ps <;> rfl
  · have h' : ps = none := h
    subst h'
    cases es <;> rfl

/-- Witness for C6: a parse failure and a document with a missing entries
container both leave a concrete state untouched. -/
theorem C6_import_all_or_nothing_witness :
    Ledger.handleImportFile none true ⟨[], []⟩ = ⟨[], []⟩ ∧
    Ledger.handleImportFile (some ⟨none, some [], some "1.0", some "2024-01-01"⟩) true
      ⟨[], []⟩ = ⟨[], []⟩ :=
  ⟨(C6_import_all_or_nothing true ⟨[], []⟩).1,
   (C6_import_all_or_nothing true ⟨[], []⟩).2
     ⟨none, some [], some "1.0", some "2024-01-01"⟩ (Or.inl rfl)⟩

/-- C7: with key `"all"` the period filter returns the full sequence
unmodified in order; with any other key it returns exactly the records whose
date starts with that key, as a subsequence of the input (relative order
preserved). Stated for both the entries filter and the payments filter. -/
theorem C7_period_filter :
    ∀ (key : String) (entries : List Ledger.ProductionEntry)
      (payments : List Ledger.Payment),
      (key = "all" →
        Ledger.filteredEntries key entries = entries ∧
        Ledger.filteredPayments key payments = payments) ∧
      (key ≠ "all" →
        Ledger.filteredEntries key entries =
          entries.filter (fun e => Ledger.strStartsWith e.date key) ∧
        (Ledger.filteredEntries key entries).Sublist entries ∧
        (∀ e, e ∈ Ledger.filteredEntries key entries ↔
          e ∈ entries ∧ Ledger.strStartsWith e.date key = true) ∧
        Ledger.filteredPayments key payments =
          payments.filter (fun p => Ledger.strStartsWith p.date key) ∧
        (Ledger.filteredPayments key payments).Sublist payments ∧
        (∀ p, p ∈ Ledger.filteredPayments key payments ↔
          p ∈ payments ∧ Ledger.strStartsWith p.date key = true)) := by
  intro key entries payments
  constructor
  · intro h
    simp only [Ledger.filteredEntries, Ledger.filteredPayments, if_pos h, and_self]
  · intro h
    have he : Ledger.filteredEntries key entries =
        entries.filter (fun e => Ledger.strStartsWith e.date key) := by
      simp only [Ledger.filteredEntries, if_neg h]
    have hp : Ledger.filteredPayments key payments =
        payments.filter (fun p => Ledger.strStartsWith p.date key) := by
      simp only [Ledger.filteredPayments, if_neg h]
    refine ⟨he, ?_, ?_, hp, ?_, ?_⟩
    · rw [he]; exact entries.filter_sublist
    · intro x; rw [he]; simp [List.mem_filter]
    · rw [hp]; exact payments.filter_sublist
    · intro x; rw [hp]; simp [List.mem_filter]

/-- Witness for C7: the filter applied at key `"all"` and at key `"2024-01"`
on concrete two-element collections. -/
theorem C7_period_filter_witness :
    (Ledger.filteredEntries "all"
        [{ id := "e1", date := "2024-01-15", runningDrum := 0, openStockGrams := 0,
           productionCones := 0, closingStockGrams := 0, ratePerKg := 0,
           totalAmount := 0, productionWeight := 0, consumptionKg := 0 }] =
      [{ id := "e1", date := "2024-01-15", runningDrum := 0, openStockGrams := 0,
         productionCones := 0, closingStockGrams := 0, ratePerKg := 0,
         totalAmount := 0, productionWeight := 0, consumptionKg := 0 }] ∧
     Ledger.filteredPayments "all" [] = []) ∧
    Ledger.filteredPayments "2024-01"
        [{ id := "p1", date := "2024-01-05", amount := 10, note := "" },
         { id := "p2", date := "2024-02-05", amount := 20, note := "" }] =
      [{ id := "p1", date := "2024-01-05", amount := 10, note := "" }] := by
  refine ⟨(C7_period_filter "all" _ _).1 rfl, ?_⟩
  have h := ((C7_period_filter "2024-01"
    ([] : List Ledger.ProductionEntry)
    [{ id := "p1", date := "2024-01-05", amount := 10, note := "" },
     { id := "p2", date := "2024-02-05", amount := 20, note := "" }]).2
    (by decide)).2.2.2.1
  rw [h]
  decide

/-- C3 counterexample: a malformed (non-empty, unparseable) persisted value
for `production_entries` does not load as the empty sequence — the `useState`
initializer has no `try`/`catch`, so `JSON.parse` throws instead. -/
theorem C3_load_counterexample :
    Ledger.loadEntries .malformed ≠ Except.ok [] := by
  simp [Ledger.loadEntries, Ledger.loadCollection]

/-- C3 amended: an absent persisted value (and the falsy empty string) loads
as the empty sequence without error, and a persisted well-formed array loads
as exactly that array; but a malformed non-empty value makes `JSON.parse`
throw out of the initializer (a fatal error) for both keys, instead of
yielding an empty sequence. -/
theorem C3_load_amended :
    (Ledger.loadEntries .absent = .ok [] ∧ Ledger.loadPayments .absent = .ok []) ∧
    (Ledger.loadEntries .emptyString = .ok [] ∧
      Ledger.loadPayments .emptyString = .ok []) ∧
    (∀ es, Ledger.loadEntries (.parsedArray es) = .ok es) ∧
    (∀ ps, Ledger.loadPayments (.parsedArray ps) = .ok ps) ∧
    (∃ msg, Ledger.loadEntries .malformed = .error msg) ∧
    (∃ msg, Ledger.loadPayments .malformed = .error msg) :=
  ⟨⟨rfl, rfl⟩, ⟨rfl, rfl⟩, fun _ => rfl, fun _ => rfl, ⟨_, rfl⟩, ⟨_, rfl⟩⟩

/-- C10: invoked with an empty entries list, the insight requester returns the
fixed sentinel string without contacting the external service. -/
theorem C10_empty_insight_sentinel :
    Ledger.analyzeProductionData [] =
      Ledger.InsightAction.sentinel "Add some data to get AI insights." := rfl

/-- A left fold of `(acc, x) ↦ acc + f x` over rationals is the sum of the
mapped list. -/
lemma foldl_add_eq_sum {α : Type} (f : α → ℚ) (l : List α) :
    l.foldl (fun acc x => acc + f x) 0 = (l.map f).sum := by
  suffices h : ∀ init : ℚ, l.foldl (fun acc x => acc + f x) init = init + (l.map f).sum by
    simpa using h 0
  induction l with
  | nil => intro init; simp
  | cons a t ih => intro init; simp [ih, add_assoc]

/-- The fold is invariant under permutation of the list. -/
lemma foldl_add_perm {α : Type} {l l' : List α} (h : l.Perm l') (f : α → ℚ) :
    l'.foldl (fun acc x => acc + f x) 0 = l.foldl (fun acc x => acc + f x) 0 := by
  rw [foldl_add_eq_sum, foldl_add_eq_sum]
  exact ((h.map f).sum_eq).symm

/-- C8: the aggregator is order-independent — permuting the filtered entries
and payments lists before aggregating yields identical `totalWeight`,
`totalValue`, `totalPaid` and `outstandingBalance` (`= totalValue - totalPaid`). -/
theorem C8_aggregation_perm_invariant :
    ∀ (entries entries' : List Ledger.ProductionEntry)
      (payments payments' : List Ledger.Payment),
      entries.Perm entries' → payments.Perm payments' →
        Ledger.stats entries' payments' = Ledger.stats entries payments := by
  intro entries entries' payments payments' he hp
  have h1 : entries'.foldl (fun acc curr => acc + curr.productionWeight) 0 =
      entries.foldl (fun acc curr => acc + curr.productionWeight) 0 :=
    foldl_add_perm he _
  have h2 : entries'.foldl (fun acc curr => acc + curr.totalAmount) 0 =
      entries.foldl (fun acc curr => acc + curr.totalAmount) 0 :=
    foldl_add_perm he _
  have h3 : payments'.foldl (fun acc curr => acc + curr.amount) 0 =
      payments.foldl (fun acc curr => acc + curr.amount) 0 :=
    foldl_add_perm hp _
  simp only [Ledger.stats, h1, h2, h3]

/-- Witness for C8: swapping the two entries and the two payments of a
concrete state leaves all four aggregates unchanged. -/
theorem C8_aggregation_perm_invariant_witness :
    Ledger.stats
        [{ id := "e2", date := "2024-01-02", runningDrum := 0, openStockGrams := 0,
           productionCones := 0, closingStockGrams := 0, ratePerKg := 0,
           totalAmount := 30, productionWeight := 2, consumptionKg := 0 },
         { id := "e1", date := "2024-01-01", runningDrum := 0, openStockGrams := 0,
           productionCones := 0, closingStockGrams := 0, ratePerKg := 0,
           totalAmount := 10, productionWeight := 1, consumptionKg := 0 }]
        [{ id := "p2", date := "2024-01-02", amount := 7, note := "" },
         { id := "p1", date := "2024-01-01", amount := 5, note := "" }] =
      Ledger.stats
        [{ id := "e1", date := "2024-01-01", runningDrum := 0, openStockGrams := 0,
           productionCones := 0, closingStockGrams := 0, ratePerKg := 0,
           totalAmount := 10, productionWeight := 1, consumptionKg := 0 },
         { id := "e2", date := "2024-01-02", runningDrum := 0, openStockGrams := 0,
           productionCones := 0, closingStockGrams := 0, ratePerKg := 0,
           totalAmount := 30, productionWeight := 2, consumptionKg := 0 }]
        [{ id := "p1", date := "2024-01-01", amount := 5, note := "" },
         { id := "p2", date := "2024-01-02", amount := 7, note := "" }] :=
  C8_aggregation_perm_invariant _ _ _ _
    (List.Perm.swap _ _ _) (List.Perm.swap _ _ _)

/-- Deleting by key from a list whose keys are distinct and do contain the
key removes exactly one element. -/
lemma filter_ne_key_length {α : Type} (key : α → String) (i : String) :
    ∀ l : List α, (l.map key).Nodup → ∀ e ∈ l, key e = i →
      (l.filter fun a => key a != i).length + 1 = l.length := by
  intro l
  induction l with
  | nil => intro _ e he; cases he
  | cons a t ih =>
    intro hnd e he hk
    simp only [List.map_cons, List.nodup_cons] at hnd
    rcases List.mem_cons.mp he with rfl | hmem
    · have hpa : (key e != i) = false := by simp [hk]
      have ht : t.filter (fun x => key x != i) = t := by
        apply List.filter_eq_self.mpr
        intro x hx
        simp only [bne_iff_ne, ne_eq, decide_eq_true_eq]
        intro hxi
        exact hnd.1 ((hk.trans hxi.symm) ▸ List.mem_map_of_mem key hx)
      simp [List.filter_cons, hpa, ht]
    · have hka : (key a != i) = true := by
        simp only [bne_iff_ne, ne_eq]
        intro hai
        exact hnd.1 ((hai.trans hk.symm) ▸ List.mem_map_of_mem key hmem)
      simp [List.filter_cons, hka, ih hnd.2 e hmem hk]

/-- C9: deleting an id absent from the collection is a no-op; the result is
always a subsequence of the input whose members are exactly the records whose
id differs from the deleted one; and when ids are unique and the id is
present, exactly one record is removed. Stated for both `deleteEntry` and
`deletePayment`. -/
theorem C9_delete_by_id :
    ∀ (id : String) (entries : List Ledger.ProductionEntry)
      (payments : List Ledger.Payment),
      ((∀ e ∈ entries, e.id ≠ id) → Ledger.deleteEntry id entries = entries) ∧
      (Ledger.deleteEntry id entries).Sublist entries ∧
      (∀ e, e ∈ Ledger.deleteEntry id entries ↔ e ∈ entries ∧ e.id ≠ id) ∧
      ((entries.map (fun e => e.id)).Nodup →
        ∀ e ∈ entries, e.id = id →
          (Ledger.deleteEntry id entries).length + 1 = entries.length) ∧
      ((∀ p ∈ payments, p.id ≠ id) → Ledger.deletePayment id payments = payments) ∧
      (Ledger.deletePayment id payments).Sublist payments ∧
      (∀ p, p ∈ Ledger.deletePayment id payments ↔ p ∈ payments ∧ p.id ≠ id) ∧
      ((payments.map (fun p => p.id)).Nodup →
        ∀ p ∈ payments, p.id = id →
          (Ledger.deletePayment id payments).length + 1 = payments.length) := by
  intro id entries payments
  refine ⟨?_, List.filter_sublist _, ?_, ?_, ?_, List.filter_sublist _, ?_, ?_⟩
  · intro h
    apply List.filter_eq_self.mpr
    intro e he
    simpa using h e he
  · intro e
    simp [Ledger.deleteEntry, List.mem_filter]
  · intro hnd e he hk
    have h := filter_ne_key_length (fun x : Ledger.ProductionEntry => x.id) id entries hnd e he hk
    simpa [Ledger.deleteEntry] using h
  · intro h
    apply List.filter_eq_self.mpr
    intro p hp
    simpa using h p hp
  · intro p
    simp [Ledger.deletePayment, List.mem_filter]
  · intro hnd p hp hk
    have h := filter_ne_key_length (fun x : Ledger.Payment => x.id) id payments hnd p hp hk
    simpa [Ledger.deletePayment] using h

/-- Witness for C9: deleting the absent id `"z"` is a no-op on a concrete
two-payment collection, and deleting the present id `"p1"` removes exactly
that payment. -/
theorem C9_delete_by_id_witness :
    Ledger.deletePayment "z"
        [{ id := "p1", date := "2024-01-01", amount := 5, note := "" },
         { id := "p2", date := "2024-01-02", amount := 7, note := "" }] =
      [{ id := "p1", date := "2024-01-01", amount := 5, note := "" },
       { id := "p2", date := "2024-01-02", amount := 7, note := "" }] ∧
    (Ledger.deletePayment "p1"
        [{ id := "p1", date := "2024-01-01", amount := 5, note := "" },
         { id := "p2", date := "2024-01-02", amount := 7, note := "" }]).length + 1 = 2 := by
  constructor
  · exact (C9_delete_by_id "z" []
      [{ id := "p1", date := "2024-01-01", amount := 5, note := "" },
       { id := "p2", date := "2024-01-02", amount := 7, note := "" }]).2.2.2.2.1
      (by decide)
  · exact (C9_delete_by_id "p1" []
      [{ id := "p1", date := "2024-01-01", amount := 5, note := "" },
       { id := "p2", date := "2024-01-02", amount := 7, note := "" }]).2.2.2.2.2.2.2
      (by decide)
      { id := "p1", date := "2024-01-01", amount := 5, note := "" }
      (by decide) (by decide)

/-- A production entry with the given id and date and zeroed numeric fields,
used to instantiate the insight-payload statements. -/
def mkDemoEntry (i d : String) : Ledger.ProductionEntry :=
  { id := i, date := d, runningDrum := 0, openStockGrams := 0, productionCones := 0,
    closingStockGrams := 0, ratePerKg := 0, totalAmount := 0, productionWeight := 0,
    consumptionKg := 0 }

/-- Eleven entries in store order, i.e. most-recent-insertion-first (`e11` is
the newest). -/
def demoInsightEntries : List Ledger.ProductionEntry :=
  [mkDemoEntry "e11" "2024-01-11", mkDemoEntry "e10" "2024-01-10",
   mkDemoEntry "e09" "2024-01-09", mkDemoEntry "e08" "2024-01-08",
   mkDemoEntry "e07" "2024-01-07", mkDemoEntry "e06" "2024-01-06",
   mkDemoEntry "e05" "2024-01-05", mkDemoEntry "e04" "2024-01-04",
   mkDemoEntry "e03" "2024-01-03", mkDemoEntry "e02" "2024-01-02",
   mkDemoEntry "e01" "2024-01-01"]

/-- C4 counterexample: on an 11-entry period-filtered list in store order
(most-recent-first), the data payload is not the most recent 10 entries (the
first ten of the list): `data.slice(-10)` takes the last ten elements, which
under this ordering are the ten oldest. -/
theorem C4_insight_counterexample :
    Ledger.analyzeProductionData (Ledger.filteredEntries "all" demoInsightEntries) ≠
      Ledger.InsightAction.contactService
        ((Ledger.filteredEntries "all" demoInsightEntries).take 10) := by
  decide

/-- C4 amended: the insight request supplies exactly the last `min(10, n)`
elements of the period-filtered list — all of them when it has 10 or fewer
entries; when it has more, these are the ten oldest entries under the store's
most-recent-first ordering, not the ten most recent. -/
theorem C4_insight_payload_amended :
    ∀ (selectedMonth : String) (entries : List Ledger.ProductionEntry),
      Ledger.filteredEntries selectedMonth entries ≠ [] →
        Ledger.analyzeProductionData (Ledger.filteredEntries selectedMonth entries) =
          Ledger.InsightAction.contactService
            ((Ledger.filteredEntries selectedMonth entries).drop
              ((Ledger.filteredEntries selectedMonth entries).length - 10)) ∧
        ((Ledger.filteredEntries selectedMonth entries).length ≤ 10 →
          Ledger.insightPayload (Ledger.filteredEntries selectedMonth entries) =
            Ledger.filteredEntries selectedMonth entries) := by
  intro selectedMonth entries hne
  constructor
  · simp only [Ledger.analyzeProductionData, Ledger.insightPayload]
    rw [if_neg (by simpa [List.length_eq_zero] using hne)]
  · intro hle
    simp only [Ledger.insightPayload, Nat.sub_eq_zero_of_le hle, List.drop_zero]

/-- Witness for C4's amended statement on a one-entry list. -/
theorem C4_insight_payload_amended_witness :
    Ledger.analyzeProductionData
        (Ledger.filteredEntries "all" [mkDemoEntry "e1" "2024-01-01"]) =
      Ledger.InsightAction.contactService
        ((Ledger.filteredEntries "all" [mkDemoEntry "e1" "2024-01-01"]).drop
          ((Ledger.filteredEntries "all" [mkDemoEntry "e1" "2024-01-01"]).length - 10)) ∧
    Ledger.insightPayload (Ledger.filteredEntries "all" [mkDemoEntry "e1" "2024-01-01"]) =
      Ledger.filteredEntries "all" [mkDemoEntry "e1" "2024-01-01"] :=
  ⟨(C4_insight_payload_amended "all" [mkDemoEntry "e1" "2024-01-01"] (by decide)).1,
   (C4_insight_payload_amended "all" [mkDemoEntry "e1" "2024-01-01"] (by decide)).2
     (by decide)⟩
